import Mathlib

/-!
A shallow embedding of `src/MediaScope.py` (class `TelegramMediaAnalyzer`):
the classifier `_get_media_type`, the size formatter `_format_size`, the
per-message aggregation body of `analyze_channel`, and the distribution
table of `_display_results`, together with theorems settling the
specification's claims about them.
-/

namespace MediaScope

/-- The document attributes the program inspects on
`message.media.document.attributes`: `DocumentAttributeFilename` (with its
`file_name` payload), `DocumentAttributeAudio`, `DocumentAttributeVideo`,
and any other attribute kind.  In telethon these are unrelated classes, so
an attribute belongs to exactly one of these shapes. -/
inductive DocAttr where
  | filename (file_name : String)
  | audio
  | video
  | other_attr
deriving DecidableEq

/-- `isinstance(a, types.DocumentAttributeAudio)` for a single attribute. -/
def is_audio_attr : DocAttr → Bool
  | DocAttr.audio => true
  | _ => false

/-- `isinstance(a, types.DocumentAttributeVideo)` for a single attribute. -/
def is_video_attr : DocAttr → Bool
  | DocAttr.video => true
  | _ => false

/-- The shapes of `message.media` the program distinguishes: a
document-bearing media object (`hasattr(message.media, 'document')`, carrying
the document's `size` and `attributes`), a photo (`types.MessageMediaPhoto`),
or any other media object.  `message.media is None` is modelled by the
`Option` wrapper in `Message`. -/
inductive Media where
  | documentMedia (size : Nat) (attributes : List DocAttr)
  | photoMedia
  | otherMedia
deriving DecidableEq

/-- One message, as far as the program reads it: its `media` field
(`None` or one of the `Media` shapes; media objects are always truthy). -/
structure Message where
  media : Option Media
deriving DecidableEq

/-- Python `str.lower()` restricted to ASCII letters, which is all
`Char.toLower` changes; the program's extension table is ASCII, so on the
characters that can influence classification this agrees with Python. -/
def str_lower (s : String) : String :=
  String.mk (s.data.map Char.toLower)

/-- Split a character list on `'/'`, mirroring how `pathlib` breaks a POSIX
path into components.  Always returns a non-empty list. -/
def split_on_slash : List Char → List (List Char)
  | [] => [[]]
  | c :: rest =>
    let r := split_on_slash rest
    if c = '/' then [] :: r
    else (c :: r.headD []) :: r.tail

/-- `PurePosixPath(s).name`: the last non-empty component of the path.
(`pathlib` additionally maps the special components `'.'` and `'..'` to an
empty name; telethon filename attributes are plain file names, for which
this model agrees with `pathlib`.) -/
def path_name (s : String) : String :=
  String.mk (((split_on_slash s.data).filter (fun c => c ≠ [])).getLastD [])

/-- Index of the last occurrence of `c`, mirroring Python `str.rfind`
(`none` for Python's `-1`). -/
def rfind_char (cs : List Char) (c : Char) : Option Nat :=
  go cs 0 none
where
  go : List Char → Nat → Option Nat → Option Nat
    | [], _, best => best
    | x :: rest, pos, best => go rest (pos + 1) (if x = c then some pos else best)

/-- `PurePosixPath(s).suffix`, as CPython computes it: in the final
component `name`, find the last `'.'` at index `i`; if `0 < i < len(name)-1`
return `name[i:]`, else the empty string. -/
def path_suffix (s : String) : String :=
  let name := (path_name s).data
  match rfind_char name '.' with
  | some i => if 0 < i ∧ i < name.length - 1 then String.mk (name.drop i) else ""
  | none => ""

/-- `self.file_types`: the extension table, in Python dict insertion order
(dict iteration preserves it, which resolves the overlapping extensions
`.xlsx`, `.json`, `.xml`, `.sql` in favour of the earlier category). -/
def file_types : List (String × List String) :=
  [("videos", [".mp4", ".avi", ".mkv", ".mov", ".wmv", ".flv", ".webm", ".m4v", ".3gp", ".mpeg", ".mpg", ".m2ts"]),
   ("audio", [".mp3", ".wav", ".ogg", ".m4a", ".flac", ".aac", ".wma", ".aiff", ".alac"]),
   ("images", [".jpg", ".jpeg", ".png", ".gif", ".bmp", ".webp", ".tiff", ".svg", ".raw", ".heic"]),
   ("documents", [".pdf", ".doc", ".docx", ".txt", ".rtf", ".odt", ".xls", ".xlsx", ".ppt", ".pptx"]),
   ("archives", [".zip", ".rar", ".7z", ".tar", ".gz", ".bz2", ".xz", ".iso"]),
   ("code", [".py", ".js", ".java", ".cpp", ".c", ".html", ".css", ".php", ".json", ".xml", ".sql", ".r", ".swift"]),
   ("ebooks", [".epub", ".mobi", ".azw", ".azw3"]),
   ("design", [".psd", ".ai", ".xd", ".sketch", ".fig", ".xcf"]),
   ("data", [".csv", ".db", ".sql", ".sqlite", ".xlsx", ".json", ".xml"]),
   ("apps", [".apk", ".ipa", ".aab"])]

/-- `for type_name, extensions in fts: if extension in extensions: return type_name`. -/
def find_type (extension : String) : List (String × List String) → Option String
  | [] => none
  | (type_name, extensions) :: rest =>
    if extensions.contains extension then some type_name
    else find_type extension rest

/-- The table lookup in `_get_media_type` (lines 85-87). -/
def lookup_extension (extension : String) : Option String :=
  find_type extension file_types

/-- The `for attribute in message.media.document.attributes` loop of
`_get_media_type` (lines 80-93).  For a filename attribute the source
lowercases `file_name`, takes `Path(filename).suffix.lower()`, and looks it
up; on no match it then tests `isinstance(attribute, DocumentAttributeAudio)`
and `...Video` — on `attribute` itself, which in that branch is a
`DocumentAttributeFilename`, so both tests are kept here exactly as written
and reduce to `false`.  After the loop, `return 'other'`. -/
def media_type_of_attrs : List DocAttr → String
  | [] => "other"
  | DocAttr.filename file_name :: rest =>
    let filename := str_lower file_name
    let extension := str_lower (path_suffix filename)
    match lookup_extension extension with
    | some type_name => type_name
    | none =>
      if is_audio_attr (DocAttr.filename file_name) then "audio"
      else if is_video_attr (DocAttr.filename file_name) then "video"
      else media_type_of_attrs rest
  | DocAttr.audio :: rest => media_type_of_attrs rest
  | DocAttr.video :: rest => media_type_of_attrs rest
  | DocAttr.other_attr :: rest => media_type_of_attrs rest

/-- `_get_media_type` (lines 74-96): `None` for no media, the attribute-loop
result for document media, `'images'` for photo media, `None` otherwise. -/
def get_media_type (message : Message) : Option String :=
  match message.media with
  | none => none
  | some (Media.documentMedia _ attributes) => some (media_type_of_attrs attributes)
  | some Media.photoMedia => some "images"
  | some Media.otherMedia => none

/-- `message.file.name` as telethon computes it for document media: the
`file_name` of the first filename attribute, `None` if there is none.  (The
`getattr(message.file, 'name', 'Unknown')` default in the source is only for
a missing attribute and is unreachable for document media.) -/
def first_filename : List DocAttr → Option String
  | [] => none
  | DocAttr.filename file_name :: _ => some file_name
  | _ :: rest => first_filename rest

/-- `getattr(message.file, 'name', 'Unknown')` for the messages the loop
aggregates (document media). -/
def message_name (m : Message) : Option String :=
  match m.media with
  | some (Media.documentMedia _ attributes) => first_filename attributes
  | _ => none

/-- `hasattr(message.media, 'document')` (with `message.media is None`
having no attributes). -/
def has_document (m : Message) : Bool :=
  match m.media with
  | some (Media.documentMedia _ _) => true
  | _ => false

/-- `largest_file` entry of `self.stats`. -/
structure LargestFile where
  size : Nat
  name : Option String
  type : Option String
deriving DecidableEq

/-- `self.stats` as the aggregation loop reads and writes it.  `media_types`
is a Python dict `type ↦ {'count', 'size'}`, modelled as a list of entries
in insertion order.  The `start_time`/`end_time` timestamps are not part of
any aggregation claim and are left out of the model. -/
structure Stats where
  total_size : Nat
  file_count : Nat
  media_types : List (String × Nat × Nat)
  largest_file : LargestFile
deriving DecidableEq

/-- `self.stats` as `__init__` creates it (lines 32-39). -/
def init_stats : Stats :=
  { total_size := 0, file_count := 0, media_types := [], largest_file := ⟨0, none, none⟩ }

/-- The lazy-init-then-increment on `self.stats['media_types'][media_type]`
(lines 134-137): a missing key is appended (dict insertion order), a present
key gets `count += 1` and `size += size`. -/
def bump_type : List (String × Nat × Nat) → String → Nat → List (String × Nat × Nat)
  | [], t, size => [(t, 1, size)]
  | (t', c, s) :: rest, t, size =>
    if t' = t then (t', c + 1, s + size) :: rest
    else (t', c, s) :: bump_type rest t size

/-- One execution of the aggregation body, lines 129-144 of
`analyze_channel`: unconditional `total_size`/`file_count` updates, the
`if media_type:`-guarded per-type update (Python truthiness: `None` and the
empty string are falsy), and the strict `size > largest_file['size']`
replacement. -/
def update_stats (st : Stats) (media_type : Option String) (size : Nat) (name : Option String) : Stats :=
  let st1 : Stats := { st with total_size := st.total_size + size, file_count := st.file_count + 1 }
  let st2 : Stats :=
    match media_type with
    | some t => if t ≠ "" then { st1 with media_types := bump_type st1.media_types t size } else st1
    | none => st1
  if size > st2.largest_file.size then
    { st2 with largest_file := ⟨size, name, media_type⟩ }
  else st2

/-- The body of `async for message in self.client.iter_messages(channel)`
(lines 124-144): only messages with `hasattr(message.media, 'document')` are
aggregated, with `size = message.media.document.size`.  The progress-bar
update (lines 145-146) touches no statistics and is omitted. -/
def process_message (st : Stats) (m : Message) : Stats :=
  match m.media with
  | some (Media.documentMedia size _) =>
    update_stats st (get_media_type m) size (message_name m)
  | _ => st

/-- The whole message loop, run from fresh statistics over a finite stream. -/
def run_stream (msgs : List Message) : Stats :=
  msgs.foldl process_message init_stats

/-- An `Aggregator.update` argument triple `(category, size, filename)`, as
the spec's §4.2 contract names the three values the loop body consumes. -/
structure UpdateArg where
  category : Option String
  size : Nat
  name : Option String
deriving DecidableEq

/-- A sequence of update steps applied to fresh statistics. -/
def apply_updates (l : List UpdateArg) : Stats :=
  l.foldl (fun st u => update_stats st u.category u.size u.name) init_stats

/-- Round a (non-negative) rational to the nearest integer, ties to even:
the rounding CPython's `format(x, '.2f')` performs on the exact value of the
float `x`. -/
def round_half_even (q : ℚ) : ℤ :=
  let f : ℤ := q.floor
  let frac : ℚ := q - (f : ℚ)
  if frac < 1 / 2 then f
  else if 1 / 2 < frac then f + 1
  else if f % 2 = 0 then f else f + 1

/-- `f"{q:.2f}"` for a non-negative value: the value rounded to two
fractional digits, rendered with exactly two digits after the point. -/
def format_two (q : ℚ) : String :=
  let c : ℤ := round_half_even (q * 100)
  let ip : ℤ := c / 100
  let fp : ℤ := c % 100
  toString ip ++ "." ++ (if fp < 10 then "0" ++ toString fp else toString fp)

/-- The unit loop of `_format_size` (lines 100-104).  The running Python
value is a float obtained from a non-negative int by repeated division by
1024; both the int-to-float conversion (for inputs below 2^53) and each
division by the power of two 1024 are exact in binary floating point, so the
running value is modelled exactly by a rational. -/
def format_loop : ℚ → List String → String
  | size_bytes, [] => format_two size_bytes ++ " " ++ "PB"
  | size_bytes, unit :: rest =>
    if size_bytes < 1024 then format_two size_bytes ++ " " ++ unit
    else format_loop (size_bytes / 1024) rest

/-- `_format_size` (lines 98-104). -/
def format_size (size_bytes : Nat) : String :=
  format_loop (size_bytes : ℚ) ["B", "KB", "MB", "GB", "TB"]

/-- `percentage = (size / self.stats['total_size']) * 100` (line 200):
Python raises `ZeroDivisionError` when the total is 0, modelled as `none`. -/
def type_percentage (size total : Nat) : Option ℚ :=
  if total = 0 then none else some ((size : ℚ) / (total : ℚ) * 100)

/-- The rows of the distribution table (lines 197-206), one per
`media_types` entry: the loop stops with an exception (`none`) as soon as a
percentage divides by zero.  Row order (the source sorts entries by label)
cannot affect whether that happens and is not modelled. -/
def rows_of (total : Nat) : List (String × Nat × Nat) → Option (List (String × Nat × Nat × ℚ))
  | [] => some []
  | (t, c, s) :: rest =>
    match type_percentage s total with
    | none => none
    | some p =>
      match rows_of total rest with
      | none => none
      | some rs => some ((t, c, s, p) :: rs)

/-- The distribution table of `_display_results` (lines 190-209): the whole
table, percentages included, is guarded by `if self.stats['media_types']:`
(a non-empty dict); when that guard fails no percentage is computed. -/
def distribution_rows (st : Stats) : Option (List (String × Nat × Nat × ℚ)) :=
  if st.media_types = [] then some []
  else rows_of st.total_size st.media_types

/-- One event yielded by the external collaborator while
`analyze_channel` runs: either the next message of the stream, or an
exception (transport, auth, channel resolution) raised into the `try` body,
carried as its message string. -/
inductive StreamEvent where
  | message (m : Message)
  | failure (e : String)
deriving DecidableEq

/-- Whether an event is an exception raised by the external collaborator. -/
def is_failure_event : StreamEvent → Bool
  | StreamEvent.failure _ => true
  | StreamEvent.message _ => false

/-- The `try` body of `analyze_channel` over a finite event stream: messages
are aggregated in order; the first exception aborts the loop, and the
`except` clause (lines 150-152) re-raises it, so the caller gets the error.
-/
def analyze_channel : List StreamEvent → Stats → Except String Stats
  | [], st => Except.ok st
  | StreamEvent.message m :: rest, st => analyze_channel rest (process_message st m)
  | StreamEvent.failure e :: _, _ => Except.error e

/-- The record `_save_stats` persists and `_display_results` presents,
restricted to its statistics content. -/
structure Report where
  total_files : Nat
  total_size : Nat
  media_types : List (String × Nat × Nat)
  largest_file : LargestFile
deriving DecidableEq

/-- Build the report from final statistics (lines 156-164 and 174-187). -/
def build_report (st : Stats) : Report :=
  { total_files := st.file_count, total_size := st.total_size,
    media_types := st.media_types, largest_file := st.largest_file }

/-- An `analyze_channel` run from fresh statistics: only when the stream is
exhausted without an exception do `_display_results`/`_save_stats` run
(lines 147-149), so a report exists only in the success case. -/
def analyze_channel_run (events : List StreamEvent) : Except String Report :=
  match analyze_channel events init_stats with
  | Except.ok st => Except.ok (build_report st)
  | Except.error e => Except.error e

/-- The largest-file component of one aggregation step (lines 139-144). -/
def largest_step (cur : LargestFile) (u : UpdateArg) : LargestFile :=
  if u.size > cur.size then ⟨u.size, u.name, u.category⟩ else cur

/-- The maximum size occurring in a sequence of updates (0 for none). -/
def list_max_size : List UpdateArg → Nat
  | [] => 0
  | u :: rest => max u.size (list_max_size rest)

/-- Sum of the `count` fields of the per-type entries. -/
def sum_counts : List (String × Nat × Nat) → Nat
  | [] => 0
  | (_, c, _) :: rest => c + sum_counts rest

/-- Sum of the `size` fields of the per-type entries. -/
def sum_sizes : List (String × Nat × Nat) → Nat
  | [] => 0
  | (_, _, s) :: rest => s + sum_sizes rest

/-- Sum of the sizes of a sequence of update arguments. -/
def sum_arg_sizes : List UpdateArg → Nat
  | [] => 0
  | u :: rest => u.size + sum_arg_sizes rest

/-- Lower-case the payload of a filename attribute, leaving the other
attribute kinds alone: two attribute lists with the same image under this
map differ only in filename letter case. -/
def attr_lower : DocAttr → DocAttr
  | DocAttr.filename file_name => DocAttr.filename (str_lower file_name)
  | a => a

/-- The three-item stream of the spec's end-to-end scenario: a 1000-byte
document named `a.mp4`, a 2000-byte document named `b.pdf`, and a photo
(whose stated 500-byte size the loop never reads). -/
def scenario_messages : List Message :=
  [⟨some (Media.documentMedia 1000 [DocAttr.filename "a.mp4"])⟩,
   ⟨some (Media.documentMedia 2000 [DocAttr.filename "b.pdf"])⟩,
   ⟨some Media.photoMedia⟩]

/-! ### Projection lemmas for one aggregation step -/

theorem update_stats_total_size (st : Stats) (mt : Option String) (n : Nat) (nm : Option String) :
    (update_stats st mt n nm).total_size = st.total_size + n := by
  cases mt with
  | none =>
    by_cases hs : n > st.largest_file.size <;> simp [update_stats, hs]
  | some t =>
    by_cases ht : t = "" <;> by_cases hs : n > st.largest_file.size <;>
      simp [update_stats, ht, hs]

theorem update_stats_file_count (st : Stats) (mt : Option String) (n : Nat) (nm : Option String) :
    (update_stats st mt n nm).file_count = st.file_count + 1 := by
  cases mt with
  | none =>
    by_cases hs : n > st.largest_file.size <;> simp [update_stats, hs]
  | some t =>
    by_cases ht : t = "" <;> by_cases hs : n > st.largest_file.size <;>
      simp [update_stats, ht, hs]

theorem update_stats_largest (st : Stats) (u : UpdateArg) :
    (update_stats st u.category u.size u.name).largest_file = largest_step st.largest_file u := by
  obtain ⟨c, n, nm⟩ := u
  cases c with
  | none =>
    by_cases hs : n > st.largest_file.size <;> simp [update_stats, largest_step, hs]
  | some t =>
    by_cases ht : t = "" <;> by_cases hs : n > st.largest_file.size <;>
      simp [update_stats, largest_step, ht, hs]

theorem update_stats_media_types_some (st : Stats) (t : String) (n : Nat) (nm : Option String)
    (ht : t ≠ "") :
    (update_stats st (some t) n nm).media_types = bump_type st.media_types t n := by
  by_cases hs : n > st.largest_file.size <;> simp [update_stats, ht, hs]

/-! ### Totals over a sequence of updates -/

theorem foldl_update_totals (l : List UpdateArg) : ∀ st : Stats,
    (l.foldl (fun st u => update_stats st u.category u.size u.name) st).total_size =
      st.total_size + sum_arg_sizes l ∧
    (l.foldl (fun st u => update_stats st u.category u.size u.name) st).file_count =
      st.file_count + l.length := by
  induction l with
  | nil => intro st; simp [sum_arg_sizes]
  | cons u t ih =>
    intro st
    simp only [List.foldl_cons, sum_arg_sizes, List.length_cons]
    obtain ⟨h1, h2⟩ := ih (update_stats st u.category u.size u.name)
    rw [h1, h2, update_stats_total_size, update_stats_file_count]
    omega

/-! ### The largest-file fold -/

theorem largest_step_size (cur : LargestFile) (u : UpdateArg) :
    (largest_step cur u).size = max cur.size u.size := by
  unfold largest_step
  split
  · next h => exact (max_eq_right (le_of_lt h)).symm
  · next h => exact (max_eq_left (not_lt.mp h)).symm

theorem foldl_update_largest (l : List UpdateArg) : ∀ st : Stats,
    (l.foldl (fun st u => update_stats st u.category u.size u.name) st).largest_file =
      l.foldl largest_step st.largest_file := by
  induction l with
  | nil => intro st; rfl
  | cons u t ih =>
    intro st
    simp only [List.foldl_cons]
    rw [ih, update_stats_largest]

theorem fold_largest_size (l : List UpdateArg) : ∀ cur : LargestFile,
    (l.foldl largest_step cur).size = max cur.size (list_max_size l) := by
  induction l with
  | nil => intro cur; simp [list_max_size]
  | cons u t ih =>
    intro cur
    simp only [List.foldl_cons, list_max_size]
    rw [ih, largest_step_size, max_assoc]

theorem fold_largest_stay (l : List UpdateArg) : ∀ cur : LargestFile,
    list_max_size l ≤ cur.size → l.foldl largest_step cur = cur := by
  induction l with
  | nil => intro cur _; rfl
  | cons u t ih =>
    intro cur h
    simp only [list_max_size, max_le_iff] at h
    have hstep : largest_step cur u = cur := by
      unfold largest_step
      rw [if_neg (not_lt.mpr h.1)]
    simp only [List.foldl_cons, hstep]
    exact ih cur h.2

theorem fold_largest_first (l : List UpdateArg) : ∀ cur : LargestFile,
    cur.size < list_max_size l →
    ∃ u, l.find? (fun v => v.size == list_max_size l) = some u ∧
      l.foldl largest_step cur = ⟨u.size, u.name, u.category⟩ := by
  induction l with
  | nil => intro cur h; simp [list_max_size] at h
  | cons a t ih =>
    intro cur h
    by_cases hm : list_max_size t ≤ a.size
    · have hmx : list_max_size (a :: t) = a.size := by
        simp [list_max_size, max_eq_left hm]
      rw [hmx] at h ⊢
      refine ⟨a, ?_, ?_⟩
      · simp [List.find?]
      · have hstep : largest_step cur a = ⟨a.size, a.name, a.category⟩ := by
          unfold largest_step
          rw [if_pos h]
        simp only [List.foldl_cons, hstep]
        exact fold_largest_stay t _ hm
    · push_neg at hm
      have hmx : list_max_size (a :: t) = list_max_size t := by
        simp [list_max_size, max_eq_right (le_of_lt hm)]
      rw [hmx] at h ⊢
      have hcur : (largest_step cur a).size < list_max_size t := by
        rw [largest_step_size]
        exact max_lt h hm
      obtain ⟨u, hu, heq⟩ := ih (largest_step cur a) hcur
      refine ⟨u, ?_, by simpa [List.foldl_cons] using heq⟩
      have hhead : ((fun v => v.size == list_max_size t) a) = false := by
        simp [Nat.ne_of_lt hm]
      simp [List.find?, hhead, hu]

/-! ### The size formatter -/

theorem format_loop_shape (units : List String) : ∀ q : ℚ,
    ∃ u r, (u ∈ units ∨ u = "PB") ∧ format_loop q units = format_two r ++ " " ++ u := by
  induction units with
  | nil => intro q; exact ⟨"PB", q, Or.inr rfl, rfl⟩
  | cons unit rest ih =>
    intro q
    by_cases h : q < 1024
    · exact ⟨unit, q, Or.inl (List.mem_cons_self _ _), by simp [format_loop, h]⟩
    · obtain ⟨u, r, hu, heq⟩ := ih (q / 1024)
      refine ⟨u, r, ?_, by simp [format_loop, h, heq]⟩
      cases hu with
      | inl m => exact Or.inl (List.mem_cons_of_mem _ m)
      | inr m => exact Or.inr m

theorem format_div_step (q : ℚ) (k : ℕ) (h : (1024 : ℚ) ^ (k + 1) ≤ q) :
    ¬ q < 1024 ∧ (1024 : ℚ) ^ k ≤ q / 1024 := by
  constructor
  · have h1 : (1024 : ℚ) ≤ 1024 ^ (k + 1) := by
      calc (1024 : ℚ) = 1024 ^ 1 := (pow_one _).symm
      _ ≤ 1024 ^ (k + 1) := pow_le_pow_right₀ (by norm_num) (by omega)
    exact not_lt.mpr (le_trans h1 h)
  · rw [le_div_iff₀ (by norm_num : (0 : ℚ) < 1024)]
    calc (1024 : ℚ) ^ k * 1024 = 1024 ^ (k + 1) := by rw [pow_succ]
    _ ≤ q := h

theorem format_loop_cap (q : ℚ) (h : (1024 : ℚ) ^ 5 ≤ q) :
    format_loop q ["B", "KB", "MB", "GB", "TB"] = format_two (q / 1024 ^ 5) ++ " " ++ "PB" := by
  obtain ⟨n1, g1⟩ := format_div_step q 4 h
  obtain ⟨n2, g2⟩ := format_div_step _ 3 g1
  obtain ⟨n3, g3⟩ := format_div_step _ 2 g2
  obtain ⟨n4, g4⟩ := format_div_step _ 1 g3
  obtain ⟨n5, -⟩ := format_div_step _ 0 g4
  have harg : q / 1024 / 1024 / 1024 / 1024 / 1024 = q / 1024 ^ 5 := by
    rw [div_div, div_div, div_div, div_div]
    norm_num
  simp only [format_loop, if_neg n1, if_neg n2, if_neg n3, if_neg n4, if_neg n5, harg]

/-! ### The classifier -/

theorem find_type_ne_empty : ∀ fts : List (String × List String),
    (∀ p ∈ fts, p.1 ≠ "") → ∀ ext t, find_type ext fts = some t → t ≠ "" := by
  intro fts
  induction fts with
  | nil => intro _ ext t h; simp [find_type] at h
  | cons p rest ih =>
    intro hall ext t h
    obtain ⟨tn, exts⟩ := p
    simp only [find_type] at h
    split at h
    · have := Option.some.inj h
      subst this
      exact hall (tn, exts) (List.mem_cons_self _ _)
    · exact ih (fun q hq => hall q (List.mem_cons_of_mem _ hq)) ext t h

theorem lookup_extension_ne_empty (ext t : String) (h : lookup_extension ext = some t) :
    t ≠ "" :=
  find_type_ne_empty file_types (by decide) ext t h

theorem media_type_of_attrs_ne_empty (l : List DocAttr) : media_type_of_attrs l ≠ "" := by
  induction l with
  | nil => simp [media_type_of_attrs]
  | cons a t ih =>
    cases a with
    | filename fn =>
      simp only [media_type_of_attrs]
      cases hx : lookup_extension (str_lower (path_suffix (str_lower fn))) with
      | some tn => exact lookup_extension_ne_empty _ _ hx
      | none =>
        simp only [is_audio_attr, is_video_attr]
        simpa using ih
    | audio => simpa [media_type_of_attrs] using ih
    | video => simpa [media_type_of_attrs] using ih
    | other_attr => simpa [media_type_of_attrs] using ih

theorem media_type_congr (l₁ : List DocAttr) : ∀ l₂ : List DocAttr,
    l₁.map attr_lower = l₂.map attr_lower →
    media_type_of_attrs l₁ = media_type_of_attrs l₂ := by
  induction l₁ with
  | nil =>
    intro l₂ h
    cases l₂ with
    | nil => rfl
    | cons b t₂ => simp at h
  | cons a t ih =>
    intro l₂ h
    cases l₂ with
    | nil => simp at h
    | cons b t₂ =>
      simp only [List.map_cons, List.cons.injEq] at h
      obtain ⟨h1, h2⟩ := h
      cases a with
      | filename f₁ =>
        cases b with
        | filename f₂ =>
          have hf : str_lower f₁ = str_lower f₂ := by
            simpa [attr_lower] using h1
          simp only [media_type_of_attrs]
          rw [hf]
          cases hx : lookup_extension (str_lower (path_suffix (str_lower f₂))) with
          | some tn => rfl
          | none =>
            simp only [is_audio_attr, is_video_attr]
            simpa using ih t₂ h2
        | audio => exact absurd h1 (by simp [attr_lower])
        | video => exact absurd h1 (by simp [attr_lower])
        | other_attr => exact absurd h1 (by simp [attr_lower])
      | audio =>
        cases b with
        | filename f₂ => exact absurd h1 (by simp [attr_lower])
        | audio =>
          simp only [media_type_of_attrs]
          exact ih t₂ h2
        | video => exact absurd h1 (by simp [attr_lower])
        | other_attr => exact absurd h1 (by simp [attr_lower])
      | video =>
        cases b with
        | filename f₂ => exact absurd h1 (by simp [attr_lower])
        | audio => exact absurd h1 (by simp [attr_lower])
        | video =>
          simp only [media_type_of_attrs]
          exact ih t₂ h2
        | other_attr => exact absurd h1 (by simp [attr_lower])
      | other_attr =>
        cases b with
        | filename f₂ => exact absurd h1 (by simp [attr_lower])
        | audio => exact absurd h1 (by simp [attr_lower])
        | video => exact absurd h1 (by simp [attr_lower])
        | other_attr =>
          simp only [media_type_of_attrs]
          exact ih t₂ h2

/-! ### Per-category sums -/

theorem sum_counts_bump (mts : List (String × Nat × Nat)) (t : String) (s : Nat) :
    sum_counts (bump_type mts t s) = sum_counts mts + 1 := by
  induction mts with
  | nil => simp only [bump_type, sum_counts]
  | cons e rest ih =>
    obtain ⟨t', c, s'⟩ := e
    simp only [bump_type]
    split
    · simp only [sum_counts]
      omega
    · simp only [sum_counts, ih]
      omega

theorem sum_sizes_bump (mts : List (String × Nat × Nat)) (t : String) (s : Nat) :
    sum_sizes (bump_type mts t s) = sum_sizes mts + s := by
  induction mts with
  | nil =>
    simp only [bump_type, sum_sizes]
    omega
  | cons e rest ih =>
    obtain ⟨t', c, s'⟩ := e
    simp only [bump_type]
    split
    · simp only [sum_sizes]
      omega
    · simp only [sum_sizes, ih]
      omega

theorem foldl_process_invariant (msgs : List Message) : ∀ st : Stats,
    st.file_count = sum_counts st.media_types →
    st.total_size = sum_sizes st.media_types →
    (msgs.foldl process_message st).file_count =
      sum_counts (msgs.foldl process_message st).media_types ∧
    (msgs.foldl process_message st).total_size =
      sum_sizes (msgs.foldl process_message st).media_types := by
  induction msgs with
  | nil => intro st h1 h2; exact ⟨h1, h2⟩
  | cons m t ih =>
    intro st h1 h2
    simp only [List.foldl_cons]
    obtain ⟨mm⟩ := m
    cases mm with
    | none => exact ih st h1 h2
    | some med =>
      cases med with
      | documentMedia size attrs =>
        apply ih
        · simp only [process_message, get_media_type]
          rw [update_stats_file_count,
            update_stats_media_types_some _ _ _ _ (media_type_of_attrs_ne_empty attrs),
            sum_counts_bump, h1]
        · simp only [process_message, get_media_type]
          rw [update_stats_total_size,
            update_stats_media_types_some _ _ _ _ (media_type_of_attrs_ne_empty attrs),
            sum_sizes_bump, h2]
      | photoMedia => exact ih st h1 h2
      | otherMedia => exact ih st h1 h2

/-! ### Percentage rows -/

theorem rows_of_isSome (total : Nat) (h : total ≠ 0) :
    ∀ mts : List (String × Nat × Nat), (rows_of total mts).isSome = true := by
  intro mts
  induction mts with
  | nil => rfl
  | cons e t ih =>
    obtain ⟨tn, c, s⟩ := e
    simp only [rows_of, type_percentage, if_neg h]
    cases hr : rows_of total t with
    | none => rw [hr] at ih; simp at ih
    | some rs => simp

/-! ### Failure propagation -/

theorem analyze_channel_clean (pre : List StreamEvent) : ∀ (st : Stats) (e : String)
    (post : List StreamEvent), (∀ ev ∈ pre, is_failure_event ev = false) →
    analyze_channel (pre ++ StreamEvent.failure e :: post) st = Except.error e := by
  induction pre with
  | nil => intro st e post _; rfl
  | cons ev t ih =>
    intro st e post h
    cases ev with
    | failure f =>
      have := h _ (List.mem_cons_self _ _)
      simp [is_failure_event] at this
    | message m =>
      simp only [List.cons_append, analyze_channel]
      exact ih _ _ _ (fun x hx => h x (List.mem_cons_of_mem _ hx))

/-! ### The claims -/

/-- C1 (counterexample): on the spec's three-item scenario stream the loop
aggregates only the two document messages — the photo item carries no
`document` attribute and line 125 skips it — so `file_count` is 2 (not 3),
`total_size` is 3000 (not 3500), and the claimed outcome with
`totalFileCount = 3`, `totalSizeBytes = 3500` and an `images` entry is
false. -/
theorem C1_counterexample :
    (run_stream scenario_messages).file_count = 2 ∧
    (run_stream scenario_messages).total_size = 3000 ∧
    ¬((run_stream scenario_messages).file_count = 3 ∧
      (run_stream scenario_messages).total_size = 3500 ∧
      (run_stream scenario_messages).media_types =
        [("videos", 1, 1000), ("documents", 1, 2000), ("images", 1, 500)]) := by
  decide

/-- C1 (amended): on the scenario stream the analysis loop yields
`totalFileCount = 2`, `totalSizeBytes = 3000`,
`perCategory = {videos: {1, 1000}, documents: {1, 2000}}` and
`largestFile = {size: 2000, name: "b.pdf", category: documents}`; the photo
item is not aggregated because the loop only processes messages whose media
carries a document payload. -/
theorem C1_theorem :
    run_stream scenario_messages =
      ⟨3000, 2, [("videos", 1, 1000), ("documents", 1, 2000)],
        ⟨2000, some "b.pdf", some "documents"⟩⟩ := by
  decide

/-- C2: for every finite sequence of update steps with arbitrary
(category, size) arguments applied to fresh statistics, `total_size`
afterwards equals the sum of the sizes and `file_count` equals the number
of steps, regardless of the categories. -/
theorem C2_theorem (l : List UpdateArg) :
    (apply_updates l).total_size = sum_arg_sizes l ∧
    (apply_updates l).file_count = l.length := by
  have h := foldl_update_totals l init_stats
  simpa [apply_updates, init_stats] using h

/-- C3 (counterexample): after the single update
`(category = videos, size = 0, name = "x")` the largest-file record still
holds the initial `⟨0, none, none⟩` — the strict `>` test against the
initial size 0 never fires — so the name and category of the earliest
maximum-size update are not retained, contradicting the claim. -/
theorem C3_counterexample :
    (apply_updates [⟨some "videos", 0, some "x"⟩]).largest_file.name = none ∧
    (apply_updates [⟨some "videos", 0, some "x"⟩]).largest_file ≠
      ⟨0, some "x", some "videos"⟩ := by
  decide

/-- C3 (amended): after any sequence of updates, `largest_file.size` equals
the maximum size seen (0 for the empty sequence); when that maximum is
positive, the record holds the name and category of the earliest update
attaining it (ties keep the earlier one, by the strict `>` comparison); when
the maximum is 0 — every update had size 0 — the record remains the initial
`⟨0, none, none⟩` and no update's name or category is retained. -/
theorem C3_theorem (l : List UpdateArg) :
    (apply_updates l).largest_file.size = list_max_size l ∧
    (0 < list_max_size l →
      ∃ u, l.find? (fun v => v.size == list_max_size l) = some u ∧
        (apply_updates l).largest_file = ⟨list_max_size l, u.name, u.category⟩) ∧
    (list_max_size l = 0 → (apply_updates l).largest_file = ⟨0, none, none⟩) := by
  have hfold : (apply_updates l).largest_file = l.foldl largest_step ⟨0, none, none⟩ := by
    unfold apply_updates
    rw [foldl_update_largest]
    rfl
  refine ⟨?_, ?_, ?_⟩
  · rw [hfold, fold_largest_size]
    simp
  · intro h
    obtain ⟨u, hu, heq⟩ := fold_largest_first l ⟨0, none, none⟩ (by simpa using h)
    have husz : u.size = list_max_size l := by
      have hp := List.find?_some hu
      simpa using hp
    refine ⟨u, hu, ?_⟩
    rw [hfold, heq, husz]
  · intro h
    rw [hfold, fold_largest_stay l ⟨0, none, none⟩ (by rw [h])]

/-- C3 (witness): on two updates tying at the positive maximum size 5 the
earliest one's name and category are retained. -/
theorem C3_witness :
    (apply_updates [⟨some "videos", 5, some "a"⟩,
      ⟨some "documents", 5, some "b"⟩]).largest_file = ⟨5, some "a", some "videos"⟩ := by
  obtain ⟨-, himp, -⟩ :=
    C3_theorem [⟨some "videos", 5, some "a"⟩, ⟨some "documents", 5, some "b"⟩]
  obtain ⟨u, hu, heq⟩ := himp (by decide)
  have hfind : ([⟨some "videos", 5, some "a"⟩, ⟨some "documents", 5, some "b"⟩] :
      List UpdateArg).find?
      (fun v => v.size == list_max_size
        [⟨some "videos", 5, some "a"⟩, ⟨some "documents", 5, some "b"⟩]) =
      some ⟨some "videos", 5, some "a"⟩ := by decide
  rw [hfind] at hu
  injection hu with hu'
  rw [heq, ← hu']
  decide

/-- C4: the size formatter satisfies the claimed point values
`format(0) = "0.00 B"`, `format(1023) = "1023.00 B"`,
`format(1024) = "1.00 KB"`, `format(1536) = "1.50 KB"` and
`format(1024·1024) = "1.00 MB"`, dividing by 1024 and picking the first
unit at which the running value is below 1024, with two fractional digits.
-/
theorem C4_theorem :
    format_size 0 = "0.00 B" ∧
    format_size 1023 = "1023.00 B" ∧
    format_size 1024 = "1.00 KB" ∧
    format_size 1536 = "1.50 KB" ∧
    format_size (1024 * 1024) = "1.00 MB" := by
  refine ⟨?_, ?_, ?_, ?_, ?_⟩ <;> with_unfolding_all decide

/-- C5: the size formatter is total — for every non-negative input it
returns a two-decimal rendering suffixed with one of the six units — and for
inputs of at least 1024^5 it stops at the `PB` unit, dividing exactly five
times and never recursing past the unit list. -/
theorem C5_theorem :
    (∀ n : Nat, ∃ u r, (u ∈ ["B", "KB", "MB", "GB", "TB"] ∨ u = "PB") ∧
      format_size n = format_two r ++ " " ++ u) ∧
    (∀ n : Nat, 1024 ^ 5 ≤ n →
      format_size n = format_two ((n : ℚ) / 1024 ^ 5) ++ " " ++ "PB") := by
  constructor
  · intro n
    exact format_loop_shape _ _
  · intro n h
    have hq : (1024 : ℚ) ^ 5 ≤ (n : ℚ) := by exact_mod_cast h
    exact format_loop_cap _ hq

/-- C5 (witness): at the input 1024^5 the formatter caps at the `PB` unit.
-/
theorem C5_witness :
    (1024 : Nat) ^ 5 ≤ 1024 ^ 5 ∧
    format_size (1024 ^ 5) =
      format_two (((1024 ^ 5 : Nat) : ℚ) / 1024 ^ 5) ++ " " ++ "PB" :=
  ⟨le_refl _, C5_theorem.2 (1024 ^ 5) (le_refl _)⟩

/-- C6 (counterexample): a single document of size 0 is reachable and
leaves a final state with `total_size = 0` but a non-empty per-category
mapping; on that state the percentage computation divides zero by zero and
faults (`none`), so producing the report is not guarded against division by
zero for such states. -/
theorem C6_counterexample :
    run_stream [⟨some (Media.documentMedia 0 [])⟩] =
      ⟨0, 1, [("other", 1, 0)], ⟨0, none, none⟩⟩ ∧
    distribution_rows ⟨0, 1, [("other", 1, 0)], ⟨0, none, none⟩⟩ = none := by
  decide

/-- C6 (amended): the only guard is the non-empty-mapping check — a final
state with no per-category entries (in particular the empty stream) yields
an empty distribution and never faults, and whenever `total_size ≠ 0` every
percentage is well defined; but a state with per-category entries and
`total_size = 0` divides by zero. -/
theorem C6_theorem (st : Stats) :
    (st.media_types = [] → distribution_rows st = some []) ∧
    (st.total_size ≠ 0 → (distribution_rows st).isSome = true) := by
  constructor
  · intro h
    unfold distribution_rows
    rw [if_pos h]
  · intro h
    unfold distribution_rows
    split
    · rfl
    · exact rows_of_isSome _ h _

/-- C6 (witness): the empty final state renders no percentage rows without
faulting, and a state with a positive total renders them all. -/
theorem C6_witness :
    distribution_rows ⟨0, 0, [], ⟨0, none, none⟩⟩ = some [] ∧
    (distribution_rows ⟨300, 2, [("videos", 2, 300)],
      ⟨200, some "a.mp4", some "videos"⟩⟩).isSome = true :=
  ⟨(C6_theorem _).1 rfl, (C6_theorem _).2 (by decide)⟩

/-- C7: a media-bearing document descriptor with no filename attribute but
an explicit audio (resp. video) flag classifies as `other`, not `audio`
(resp. `video`): the fallback `isinstance` checks sit inside the
filename-attribute branch, where they test the filename attribute itself
and can never hold, so the fallback is unreachable and the claim fails on
the code. -/
theorem C7_theorem :
    get_media_type ⟨some (Media.documentMedia 500 [DocAttr.audio])⟩ = some "other" ∧
    get_media_type ⟨some (Media.documentMedia 500 [DocAttr.video])⟩ = some "other" ∧
    (some "other" : Option String) ≠ some "audio" ∧
    (some "other" : Option String) ≠ some "video" := by
  decide

/-- C8: if the external collaborator raises mid-stream — any prefix of
messages followed by an exception — the run returns only that failure: no
report (partial or otherwise) reaches the persistence or presentation path.
-/
theorem C8_theorem (pre : List StreamEvent) (e : String) (post : List StreamEvent)
    (h : ∀ ev ∈ pre, is_failure_event ev = false) :
    analyze_channel_run (pre ++ StreamEvent.failure e :: post) = Except.error e := by
  unfold analyze_channel_run
  rw [analyze_channel_clean pre init_stats e post h]

/-- C8 (witness): a connection error after one aggregated message yields
the failure, not a report. -/
theorem C8_witness :
    analyze_channel_run
      [StreamEvent.message ⟨some (Media.documentMedia 1000 [DocAttr.filename "a.mp4"])⟩,
       StreamEvent.failure "ConnectionError: could not connect",
       StreamEvent.message ⟨some (Media.documentMedia 2000 [DocAttr.filename "b.pdf"])⟩] =
      Except.error "ConnectionError: could not connect" :=
  C8_theorem
    [StreamEvent.message ⟨some (Media.documentMedia 1000 [DocAttr.filename "a.mp4"])⟩]
    "ConnectionError: could not connect"
    [StreamEvent.message ⟨some (Media.documentMedia 2000 [DocAttr.filename "b.pdf"])⟩]
    (by decide)

/-- C9: classification is deterministic and pure — equal descriptors
classify equally — and extension matching is case-insensitive: two document
descriptors whose attribute lists agree after lower-casing filename
payloads (e.g. `movie.MP4` versus `movie.mp4`) classify to the same
category. -/
theorem C9_theorem :
    (∀ d₁ d₂ : Message, d₁ = d₂ → get_media_type d₁ = get_media_type d₂) ∧
    (∀ (size : Nat) (l₁ l₂ : List DocAttr), l₁.map attr_lower = l₂.map attr_lower →
      get_media_type ⟨some (Media.documentMedia size l₁)⟩ =
        get_media_type ⟨some (Media.documentMedia size l₂)⟩) := by
  constructor
  · intro d₁ d₂ h
    rw [h]
  · intro size l₁ l₂ h
    simp only [get_media_type]
    rw [media_type_congr l₁ l₂ h]

/-- C9 (witness): `movie.MP4` and `movie.mp4` classify identically, namely
as `videos`. -/
theorem C9_witness :
    get_media_type ⟨some (Media.documentMedia 100 [DocAttr.filename "movie.MP4"])⟩ =
      get_media_type ⟨some (Media.documentMedia 100 [DocAttr.filename "movie.mp4"])⟩ ∧
    get_media_type ⟨some (Media.documentMedia 100 [DocAttr.filename "movie.mp4"])⟩ =
      some "videos" :=
  ⟨C9_theorem.2 100 [DocAttr.filename "movie.MP4"] [DocAttr.filename "movie.mp4"]
    (by decide), by decide⟩

/-- C10: every message the loop aggregates (document media) receives a
non-`None`, non-empty category — unmatched or missing filenames fall back
to `other` — and therefore after every update `file_count` equals the sum
of the per-category counts and `total_size` equals the sum of the
per-category sizes. -/
theorem C10_theorem :
    (∀ m : Message, has_document m = true →
      ∃ c, get_media_type m = some c ∧ c ≠ "") ∧
    (∀ msgs : List Message,
      (run_stream msgs).file_count = sum_counts (run_stream msgs).media_types ∧
      (run_stream msgs).total_size = sum_sizes (run_stream msgs).media_types) := by
  constructor
  · intro m hdoc
    obtain ⟨mm⟩ := m
    cases mm with
    | none => simp [has_document] at hdoc
    | some med =>
      cases med with
      | documentMedia size attrs =>
        exact ⟨media_type_of_attrs attrs, rfl, media_type_of_attrs_ne_empty attrs⟩
      | photoMedia => simp [has_document] at hdoc
      | otherMedia => simp [has_document] at hdoc
  · intro msgs
    exact foldl_process_invariant msgs init_stats rfl rfl

/-- C10 (witness): a document with an unmatched filename extension gets the
non-empty fallback category. -/
theorem C10_witness :
    ∃ c, get_media_type ⟨some (Media.documentMedia 7 [DocAttr.filename "mystery.bin"])⟩ =
      some c ∧ c ≠ "" :=
  C10_theorem.1 ⟨some (Media.documentMedia 7 [DocAttr.filename "mystery.bin"])⟩ rfl

end MediaScope
